import Mathlib

/-!
Verification of the LuminaryChat request-proxy pipeline (src/luminarychat.py):
persona injection and model substitution in `UpstreamAPIClient.proxy_chat_completion`,
retry/backoff in `UpstreamAPIClient._retry_request`, stream rewriting in
`StreamProcessor.process_stream`, and the sliding-window `RateLimiter`.
Every definition is a shallow embedding of the corresponding Python code.
-/

set_option maxHeartbeats 1000000

namespace LuminaryChat

/-! ## String utilities modelling Python `str` operations -/

/-- The characters Python `str.strip()` removes: exactly the code points
with the Unicode whitespace property as CPython defines it
(0x09-0x0d, 0x1c-0x20, 0x85, 0xa0, 0x1680, 0x2000-0x200a, 0x2028, 0x2029,
0x202f, 0x205f, 0x3000). -/
def isPyWs (c : Char) : Bool :=
  let n := c.toNat
  (9 ≤ n && n ≤ 13) || (28 ≤ n && n ≤ 32) || n = 0x85 || n = 0xa0 || n = 0x1680
    || (0x2000 ≤ n && n ≤ 0x200a) || n = 0x2028 || n = 0x2029 || n = 0x202f
    || n = 0x205f || n = 0x3000

/-- Drop leading whitespace from a character list. -/
def stripLeft : List Char → List Char
  | [] => []
  | c :: cs => if isPyWs c then stripLeft cs else c :: cs

/-- Model of Python `str.strip()` on the underlying character list. -/
def pyStripL (cs : List Char) : List Char :=
  (stripLeft (stripLeft cs).reverse).reverse

/-- Model of Python `str.strip()`. -/
def pyStrip (s : String) : String := String.mk (pyStripL s.data)

/-- Model of Python `str.startswith` on character lists. -/
def strBeginsL : List Char → List Char → Bool
  | [], _ => true
  | _ :: _, [] => false
  | p :: ps, c :: cs => p = c && strBeginsL ps cs

/-- Model of Python `str.startswith`. -/
def strBegins (p s : String) : Bool := strBeginsL p.data s.data

/-- Model of the Python slice `s[n:]`. -/
def pyDropStr (n : Nat) (s : String) : String := String.mk (s.data.drop n)

/-- Code points of a string. Python `str` values are sequences of
arbitrary code points (lone surrogates included, which JSON `\uXXXX`
escapes can produce), so JSON-decoded text is represented by code-point
lists; Lean strings cover the scalar-only values such as the upstream
lines, which come from a strict UTF-8 decode. -/
def uc (s : String) : List Nat := s.data.map Char.toNat

/-- Model of Python `str.startswith` on code-point lists. -/
def ncBegins : List Nat → List Nat → Bool
  | [], _ => true
  | _ :: _, [] => false
  | p :: ps, c :: cs => p = c && ncBegins ps cs

/-- Model of the Python substring test `needle in hay` for strings, on
code-point lists. -/
def ncOccurs : List Nat → List Nat → Bool
  | needle, [] => needle.isEmpty
  | needle, c :: cs => ncBegins needle (c :: cs) || ncOccurs needle cs

/-! ## Python floats (IEEE-754 binary64)

Python parses JSON numbers with a fraction or exponent part through
`float()`, which rounds the exact decimal to the nearest binary64 value
(ties to even), and serializes floats through `float.__repr__`, the
shortest decimal string that reads back to the same value. Both directions
are modelled exactly with integer arithmetic. -/

/-- An IEEE-754 binary64 value as held by a Python float: zero and finite
values are `±m * 2^e` in canonical form (`m = 0, e = 0` for zeros;
`2^52 ≤ m < 2^53` for normals; `0 < m < 2^52, e = -1074` for subnormals),
plus infinities and NaN. -/
inductive F64 where
  | finite (neg : Bool) (m : Nat) (e : Int)
  | inf (neg : Bool)
  | nan
deriving DecidableEq

/-- Number of bits of `n` (0 for 0); the fuel bounds the recursion depth
and is chosen above the bit length at every use site. -/
def bitlenF : Nat → Nat → Nat
  | 0, _ => 0
  | fuel + 1, n => if n = 0 then 0 else bitlenF fuel (n / 2) + 1

/-- Test `p / q ≥ 2^g` for naturals `p, q > 0` and an integer `g`. -/
def geTwoPow (p q : Nat) (g : Int) : Bool :=
  if 0 ≤ g then q * 2 ^ g.toNat ≤ p else q ≤ p * 2 ^ (-g).toNat

/-- Round `num / den` half to even. -/
def rhe (num den : Nat) : Nat :=
  let q := num / den
  let r := num % den
  if den < 2 * r then q + 1
  else if 2 * r < den then q
  else if q % 2 = 0 then q else q + 1

/-- Round the exact decimal `±d * 10^e10` to the nearest binary64 (ties to
even), as CPython `float()` does; `nd` is the number of decimal digits of
the literal `d` was read from (it only sizes the guards and the bit-length
fuel). Magnitudes at least `10^309` overflow to infinity and magnitudes
below `10^(-324)` round to zero. -/
def roundDec (neg : Bool) (d : Nat) (nd : Nat) (e10 : Int) : F64 :=
  if d = 0 then .finite neg 0 0
  else if 309 ≤ (nd : Int) + e10 - 1 then .inf neg
  else if (nd : Int) + e10 ≤ -324 then .finite neg 0 0
  else
    let fuel := 4 * nd + 1400
    let p := if 0 ≤ e10 then d * 10 ^ e10.toNat else d
    let q := if 0 ≤ e10 then 1 else 10 ^ (-e10).toNat
    let f0 : Int := (bitlenF fuel p : Int) - (bitlenF fuel q : Int) - 1
    let f : Int := if geTwoPow p q (f0 + 1) then f0 + 1 else f0
    if f < -1022 then
      let n := rhe (p * 2 ^ 1074) q
      if n = 0 then .finite neg 0 0 else .finite neg n (-1074)
    else
      let t : Int := 52 - f
      let num := if 0 ≤ t then p * 2 ^ t.toNat else p
      let den := if 0 ≤ t then q else q * 2 ^ (-t).toNat
      let n := rhe num den
      let n2 := if n = 2 ^ 53 then 2 ^ 52 else n
      let f2 := if n = 2 ^ 53 then f + 1 else f
      if 1023 < f2 then .inf neg
      else .finite neg n2 (f2 - 52)

/-- In the shortest-decimal search, the candidate region's upper edge
reaches 1: `r + mp ≥ s` (inclusive reading) or `r + mp > s` (exclusive). -/
def tooHigh (incl : Bool) (r s mp : Nat) : Bool :=
  if incl then s ≤ r + mp else s < r + mp

/-- Scale `s` up by tens until the value plus its half-gap fits below 1. -/
def bdUp : Nat → Nat → Nat → Nat → Int → Bool → Nat × Int
  | 0, _, s, _, k, _ => (s, k)
  | fuel + 1, r, s, mp, k, incl =>
    if tooHigh incl r s mp then bdUp fuel r (s * 10) mp (k + 1) incl
    else (s, k)

/-- Scale `r, mp, mm` up by tens while the first digit would be zero. -/
def bdDown : Nat → Nat → Nat → Nat → Nat → Int → Bool → Nat × Nat × Nat × Int
  | 0, r, _, mp, mm, k, _ => (r, mp, mm, k)
  | fuel + 1, r, s, mp, mm, k, incl =>
    if tooHigh incl (r * 10) s (mp * 10) then (r, mp, mm, k)
    else bdDown fuel (r * 10) s (mp * 10) (mm * 10) (k - 1) incl

/-- Digit generation for the shortest correctly-rounding decimal of
`r / s` whose rounding interval has half-gaps `mm / s` below and `mp / s`
above (the Burger-Dybvig free-format loop; the final digit rounds, ties
to the even digit). -/
def bdGen : Nat → Nat → Nat → Nat → Nat → Bool → List Nat
  | 0, _, _, _, _, _ => []
  | fuel + 1, r, s, mp, mm, incl =>
    let r1 := r * 10
    let mp1 := mp * 10
    let mm1 := mm * 10
    let d := r1 / s
    let r2 := r1 % s
    let low := if incl then r2 ≤ mm1 else r2 < mm1
    let high := if incl then s ≤ r2 + mp1 else s < r2 + mp1
    if low && high then
      [if 2 * r2 < s then d
       else if s < 2 * r2 then d + 1
       else if d % 2 = 0 then d else d + 1]
    else if low then [d]
    else if high then [d + 1]
    else d :: bdGen fuel r2 s mp1 mm1 incl

/-- Carry propagation for a final digit that rounded up to 10; the digit
positions a carry passes over are trailing zeros and are dropped. -/
def bdCarryGo : List Nat → List Nat × Bool
  | [] => ([], false)
  | d :: rest =>
    match bdCarryGo rest with
    | (rest2, carry) =>
      let d2 := d + (if carry then 1 else 0)
      if d2 = 10 then (rest2, true) else (d2 :: rest2, false)

/-- Normalize generated digits: resolve a carry out of the last digit,
reporting the decimal-exponent increment it causes. -/
def bdCarry (ds : List Nat) : List Nat × Int :=
  match bdCarryGo ds with
  | (ds2, false) => (ds2, 0)
  | (ds2, true) => (1 :: ds2, 1)

/-- Shortest round-tripping decimal digits of the positive finite value
`m * 2^e`: the digit list `d1 ... dn` (`d1 ≠ 0`, no trailing zeros) and
the `k` with value `= 0.d1...dn * 10^k`. The rounding interval is a half
unit in the last place on each side, except a quarter below at a binade
boundary, and its ends read back to the value exactly when `m` is even. -/
def shortestDigits (m : Nat) (e : Int) : List Nat × Int :=
  let lowBoundaryHalf := m = 2 ^ 52 && e ≠ -1074 && 0 < e + 1074
  let r0 := if lowBoundaryHalf then 4 * m else 2 * m
  let sBase := if lowBoundaryHalf then 4 else 2
  let mp0 := if lowBoundaryHalf then 2 else 1
  let r := if 0 ≤ e then r0 * 2 ^ e.toNat else r0
  let s := if 0 ≤ e then sBase else sBase * 2 ^ (-e).toNat
  let mp := if 0 ≤ e then mp0 * 2 ^ e.toNat else mp0
  let mm := if 0 ≤ e then 2 ^ e.toNat else 1
  let incl := m % 2 = 0
  let up := bdUp 1400 r s mp 0 incl
  let down := bdDown 1400 r up.1 mp mm up.2 incl
  let ds := bdGen 40 down.1 up.1 down.2.1 down.2.2.1 incl
  let c := bdCarry ds
  (c.1, down.2.2.2 + c.2)

/-- ASCII string of a digit list. -/
def digitChars (ds : List Nat) : String :=
  String.mk (ds.map (fun d => Char.ofNat (48 + d)))

/-- A run of `n` copies of a character. -/
def natRepeat (c : Char) : Nat → String
  | 0 => ""
  | n + 1 => String.mk [c] ++ natRepeat c n

/-- CPython `repr` formatting of a finite nonzero float from its shortest
digits `ds` and decimal exponent `k`: fixed-point notation when
`-4 < k ≤ 16`, otherwise scientific notation with a signed exponent of at
least two digits. -/
def fmtShort (ds : List Nat) (k : Int) : String :=
  if -4 < k && k ≤ 16 then
    if k ≤ 0 then "0." ++ natRepeat '0' (-k).toNat ++ digitChars ds
    else if (ds.length : Int) ≤ k then
      digitChars ds ++ natRepeat '0' (k - ds.length).toNat ++ ".0"
    else
      digitChars (ds.take k.toNat) ++ "." ++ digitChars (ds.drop k.toNat)
  else
    let mantissa :=
      match ds with
      | [d] => digitChars [d]
      | d :: rest => digitChars [d] ++ "." ++ digitChars rest
      | [] => "0"
    let ex := k - 1
    let exDigits := toString (if 0 ≤ ex then ex.toNat else (-ex).toNat)
    let exPad := if exDigits.length < 2 then "0" ++ exDigits else exDigits
    mantissa ++ "e" ++ (if 0 ≤ ex then "+" else "-") ++ exPad

/-- Python `float.__repr__` of a finite float `±m * 2^e`. -/
def reprFinite (neg : Bool) (m : Nat) (e : Int) : String :=
  let sign := if neg then "-" else ""
  if m = 0 then sign ++ "0.0"
  else
    let dk := shortestDigits m e
    sign ++ fmtShort dk.1 dk.2

/-- Float serialization of `json.dumps` (its `floatstr`): the constants
`NaN`, `Infinity` and `-Infinity` for the special values, otherwise
`float.__repr__`. -/
def floatRepr : F64 → String
  | .nan => "NaN"
  | .inf false => "Infinity"
  | .inf true => "-Infinity"
  | .finite neg m e => reprFinite neg m e

/-! ## JSON values, serialization (Python `json.dumps`) and parsing
(Python `json.loads`) -/

/-- JSON values as produced by Python `json.loads`: `None`, booleans,
ints (integer literals, arbitrary precision), floats (literals with a
fraction or exponent part, and the `NaN`/`Infinity` constants), strings
(code-point sequences), lists, and dicts (insertion-ordered association
lists, as Python dicts are ordered). -/
inductive Json where
  | null
  | bool (b : Bool)
  | num (n : Int)
  | fnum (f : F64)
  | str (cs : List Nat)
  | arr (items : List Json)
  | obj (fields : List (List Nat × Json))

/-- ASCII code of a lower-case hex digit. -/
def hexCode (n : Nat) : Nat := if n < 10 then 48 + n else 87 + n

/-- The escape `\uXXXX` (lower-case hex) of a code unit below 0x10000. -/
def uEscape (c : Nat) : List Nat :=
  [92, 117, hexCode (c / 4096 % 16), hexCode (c / 256 % 16),
   hexCode (c / 16 % 16), hexCode (c % 16)]

/-- Escape one code point of a JSON string as Python `json.dumps` does:
quote and backslash always, the short escapes and `\u00XX` for the
controls; with `ensure_ascii` (the default, used at
src/luminarychat.py:470) every code point outside `0x20..0x7e` becomes a
`\uXXXX` escape, astral code points as a surrogate pair; without it (the
`ensure_ascii=False` call at src/luminarychat.py:441) everything from
0x20 up is emitted raw. -/
def escCode (ascii : Bool) (c : Nat) : List Nat :=
  if c = 34 then [92, 34]
  else if c = 92 then [92, 92]
  else if c = 8 then [92, 98]
  else if c = 9 then [92, 116]
  else if c = 10 then [92, 110]
  else if c = 12 then [92, 102]
  else if c = 13 then [92, 114]
  else if c < 32 then uEscape c
  else if !ascii then [c]
  else if c ≤ 126 then [c]
  else if c < 65536 then uEscape c
  else uEscape (55296 + (c - 65536) / 1024) ++ uEscape (56320 + (c - 65536) % 1024)

mutual

/-- Model of Python `json.dumps` with its default separators `", "` and
`": "`, emitting code points; `ascii` selects the `ensure_ascii` mode. -/
def dumpJsonW (ascii : Bool) : Json → List Nat
  | .null => uc "null"
  | .bool true => uc "true"
  | .bool false => uc "false"
  | .num n => uc (toString n)
  | .fnum f => uc (floatRepr f)
  | .str cs => 34 :: (dumpStrW ascii cs ++ [34])
  | .arr items => 91 :: (dumpArrW ascii items ++ [93])
  | .obj fields => 123 :: (dumpObjW ascii fields ++ [125])

/-- Serialize the body of a JSON string literal. -/
def dumpStrW (ascii : Bool) : List Nat → List Nat
  | [] => []
  | c :: cs => escCode ascii c ++ dumpStrW ascii cs

/-- Serialize array items separated by `", "`. -/
def dumpArrW (ascii : Bool) : List Json → List Nat
  | [] => []
  | [x] => dumpJsonW ascii x
  | x :: y :: rest => dumpJsonW ascii x ++ uc ", " ++ dumpArrW ascii (y :: rest)

/-- Serialize object fields as `"key": value` separated by `", "`. -/
def dumpObjW (ascii : Bool) : List (List Nat × Json) → List Nat
  | [] => []
  | [(k, v)] => 34 :: (dumpStrW ascii k ++ [34]) ++ uc ": " ++ dumpJsonW ascii v
  | (k, v) :: f :: rest =>
    34 :: (dumpStrW ascii k ++ [34]) ++ uc ": " ++ dumpJsonW ascii v ++ uc ", "
      ++ dumpObjW ascii (f :: rest)

end

/-- The `json.dumps(..., ensure_ascii=False)` call that re-serializes
stream chunks (src/luminarychat.py:441). -/
def dumpJson : Json → List Nat := dumpJsonW false

/-- The default `json.dumps` call that serializes the in-band stream error
envelope (src/luminarychat.py:470), with `ensure_ascii=True`. -/
def dumpJsonAscii : Json → List Nat := dumpJsonW true

/-- JSON inter-token whitespace (RFC 8259: space, tab, newline, carriage
return), narrower than Python `str.strip()` whitespace. -/
def isJsonWs (c : Char) : Bool :=
  c = ' ' || c = '\t' || c = '\n' || c = '\r'

/-- Skip leading JSON whitespace. -/
def skipWsL : List Char → List Char
  | [] => []
  | c :: cs => if isJsonWs c then skipWsL cs else c :: cs

/-- Value of one hex digit, if any. -/
def hexVal (c : Char) : Option Nat :=
  if '0' ≤ c ∧ c ≤ '9' then some (c.toNat - 48)
  else if 'a' ≤ c ∧ c ≤ 'f' then some (c.toNat - 87)
  else if 'A' ≤ c ∧ c ≤ 'F' then some (c.toNat - 55)
  else none

/-- Parse the body of a JSON string literal (after the opening quote) the
way CPython `json`'s `scanstring` does, returning the decoded code points
and the remainder after the closing quote: the named escapes, `\uXXXX`
escapes with a high surrogate combining with an immediately following low
surrogate escape (and otherwise kept as a lone surrogate code point), raw
control characters rejected (strict mode), everything else kept. -/
def parseStrCharsF : Nat → List Char → Option (List Nat × List Char)
  | 0, _ => none
  | _, [] => none
  | fuel + 1, c :: cs =>
    if c = '"' then some ([], cs)
    else if c = '\\' then
      match cs with
      | [] => none
      | e :: cs2 =>
        if e = '"' || e = '\\' || e = '/' then
          (parseStrCharsF fuel cs2).map (fun r => (e.toNat :: r.1, r.2))
        else if e = 'n' then (parseStrCharsF fuel cs2).map (fun r => (10 :: r.1, r.2))
        else if e = 't' then (parseStrCharsF fuel cs2).map (fun r => (9 :: r.1, r.2))
        else if e = 'r' then (parseStrCharsF fuel cs2).map (fun r => (13 :: r.1, r.2))
        else if e = 'b' then (parseStrCharsF fuel cs2).map (fun r => (8 :: r.1, r.2))
        else if e = 'f' then (parseStrCharsF fuel cs2).map (fun r => (12 :: r.1, r.2))
        else if e = 'u' then
          match cs2 with
          | h1 :: h2 :: h3 :: h4 :: cs3 =>
            match hexVal h1, hexVal h2, hexVal h3, hexVal h4 with
            | some a, some b, some c3, some d =>
              let uni := ((a * 16 + b) * 16 + c3) * 16 + d
              if 55296 ≤ uni && uni ≤ 56319 then
                match cs3 with
                | '\\' :: 'u' :: g1 :: g2 :: g3 :: g4 :: cs4 =>
                  match hexVal g1, hexVal g2, hexVal g3, hexVal g4 with
                  | some a2, some b2, some c2, some d2 =>
                    let uni2 := ((a2 * 16 + b2) * 16 + c2) * 16 + d2
                    if 56320 ≤ uni2 && uni2 ≤ 57343 then
                      (parseStrCharsF fuel cs4).map (fun r =>
                        ((65536 + (uni - 55296) * 1024 + (uni2 - 56320)) :: r.1, r.2))
                    else (parseStrCharsF fuel cs3).map (fun r => (uni :: r.1, r.2))
                  | _, _, _, _ => none
                | _ => (parseStrCharsF fuel cs3).map (fun r => (uni :: r.1, r.2))
              else (parseStrCharsF fuel cs3).map (fun r => (uni :: r.1, r.2))
            | _, _, _, _ => none
          | _ => none
        else none
    else if c.toNat < 32 then none
    else (parseStrCharsF fuel cs).map (fun r => (c.toNat :: r.1, r.2))

/-- String-literal body parse with enough fuel for its input (every
recursive call consumes at least one character). -/
def parseStrChars (cs : List Char) : Option (List Nat × List Char) :=
  parseStrCharsF (cs.length + 1) cs

/-- Take a maximal run of decimal digits. -/
def takeDigits : List Char → List Char × List Char
  | [] => ([], [])
  | c :: cs =>
    if '0' ≤ c ∧ c ≤ '9' then
      let r := takeDigits cs
      (c :: r.1, r.2)
    else ([], c :: cs)

/-- Numeric value of a digit run. -/
def digitsToNat (ds : List Char) : Nat :=
  ds.foldl (fun acc c => acc * 10 + (c.toNat - 48)) 0

/-- The optional fraction part `.digits+` of a number literal; a dot not
followed by a digit is left unconsumed (the number ends before it, exactly
as the `json` number regex matches). -/
def parseFrac : List Char → List Char × List Char
  | '.' :: rest =>
    let r := takeDigits rest
    if r.1.isEmpty then ([], '.' :: rest) else r
  | cs => ([], cs)

/-- The optional exponent part `[eE][+-]?digits+` of a number literal; an
`e` not followed by a well-formed exponent is left unconsumed. -/
def parseExp : List Char → Option Int × List Char
  | [] => (none, [])
  | c :: rest =>
    if c = 'e' || c = 'E' then
      match rest with
      | '+' :: rest2 =>
        let r := takeDigits rest2
        if r.1.isEmpty then (none, c :: rest) else (some (digitsToNat r.1 : Int), r.2)
      | '-' :: rest2 =>
        let r := takeDigits rest2
        if r.1.isEmpty then (none, c :: rest) else (some (-(digitsToNat r.1 : Int)), r.2)
      | _ =>
        let r := takeDigits rest
        if r.1.isEmpty then (none, c :: rest) else (some (digitsToNat r.1 : Int), r.2)
    else (none, c :: rest)

/-- Assemble a parsed number from its integer digits and what follows: a
bare integer literal becomes a Python int, one with a fraction or exponent
part becomes a Python float. -/
def mkNum (neg : Bool) (ints : List Char) (cs : List Char) : Json × List Char :=
  let fr := parseFrac cs
  let ex := parseExp fr.2
  match ex.1, fr.1 with
  | none, [] =>
    (Json.num (if neg then -(digitsToNat ints : Int) else (digitsToNat ints : Int)), cs)
  | _, _ =>
    let d := digitsToNat (ints ++ fr.1)
    let e10 : Int := ex.1.getD 0 - fr.1.length
    (Json.fnum (roundDec neg d (ints.length + fr.1.length) e10), ex.2)

/-- Parse a JSON number literal per the `json` module's number regex:
optional minus, an integer part that is `0` or starts with a nonzero
digit, then optional fraction and exponent parts. -/
def parseNum (cs : List Char) : Option (Json × List Char) :=
  let sgn := match cs with
    | '-' :: rest => (true, rest)
    | _ => (false, cs)
  match sgn.2 with
  | [] => none
  | c :: rest1 =>
    if c = '0' then some (mkNum sgn.1 ['0'] rest1)
    else if '1' ≤ c ∧ c ≤ '9' then
      let r := takeDigits (c :: rest1)
      some (mkNum sgn.1 r.1 r.2)
    else none

/-- Python dict assignment `d[k] = v`: replace in place if the key exists
(keeping its position), else append. Also the accumulation step of object
parsing, matching Python dict insertion semantics. -/
def objInsert (fields : List (List Nat × Json)) (k : List Nat) (v : Json) :
    List (List Nat × Json) :=
  match fields with
  | [] => [(k, v)]
  | (k2, v2) :: rest => if k2 = k then (k2, v) :: rest else (k2, v2) :: objInsert rest k v

mutual

/-- Fuel-indexed JSON value parser: strings, objects, arrays, the
`true`/`false`/`null` literals, the `NaN`/`Infinity`/`-Infinity` float
constants, and numbers. -/
def parseValue : Nat → List Char → Option (Json × List Char)
  | 0, _ => none
  | fuel + 1, cs =>
    match skipWsL cs with
    | [] => none
    | c :: rest =>
      if c = '"' then (parseStrChars rest).map (fun r => (Json.str r.1, r.2))
      else if c = Char.ofNat 123 then parseObjBody fuel rest
      else if c = '[' then parseArrBody fuel rest
      else if strBeginsL ['t', 'r', 'u', 'e'] (c :: rest) then
        some (Json.bool true, (c :: rest).drop 4)
      else if strBeginsL ['f', 'a', 'l', 's', 'e'] (c :: rest) then
        some (Json.bool false, (c :: rest).drop 5)
      else if strBeginsL ['n', 'u', 'l', 'l'] (c :: rest) then
        some (Json.null, (c :: rest).drop 4)
      else if strBeginsL ['N', 'a', 'N'] (c :: rest) then
        some (Json.fnum .nan, (c :: rest).drop 3)
      else if strBeginsL ['I', 'n', 'f', 'i', 'n', 'i', 't', 'y'] (c :: rest) then
        some (Json.fnum (.inf false), (c :: rest).drop 8)
      else if strBeginsL ['-', 'I', 'n', 'f', 'i', 'n', 'i', 't', 'y'] (c :: rest) then
        some (Json.fnum (.inf true), (c :: rest).drop 9)
      else parseNum (c :: rest)

/-- Parse an object body after the opening brace. -/
def parseObjBody : Nat → List Char → Option (Json × List Char)
  | 0, _ => none
  | fuel + 1, cs =>
    match skipWsL cs with
    | [] => none
    | c :: rest =>
      if c = Char.ofNat 125 then some (Json.obj [], rest)
      else parseObjFields fuel [] (c :: rest)

/-- Parse the fields of a non-empty object body. -/
def parseObjFields : Nat → List (List Nat × Json) → List Char → Option (Json × List Char)
  | 0, _, _ => none
  | fuel + 1, acc, cs =>
    match skipWsL cs with
    | [] => none
    | c :: rest =>
      if c = '"' then
        match parseStrChars rest with
        | some (kChars, afterKey) =>
          match skipWsL afterKey with
          | ':' :: afterColon =>
            match parseValue fuel afterColon with
            | some (v, afterVal) =>
              let acc2 := objInsert acc kChars v
              match skipWsL afterVal with
              | ',' :: afterComma => parseObjFields fuel acc2 afterComma
              | c2 :: rest2 => if c2 = Char.ofNat 125 then some (Json.obj acc2, rest2) else none
              | [] => none
            | none => none
          | _ => none
        | none => none
      else none

/-- Parse an array body after the opening bracket. -/
def parseArrBody : Nat → List Char → Option (Json × List Char)
  | 0, _ => none
  | fuel + 1, cs =>
    match skipWsL cs with
    | [] => none
    | c :: rest =>
      if c = ']' then some (Json.arr [], rest)
      else parseArrItems fuel [] (c :: rest)

/-- Parse the items of a non-empty array body. -/
def parseArrItems : Nat → List Json → List Char → Option (Json × List Char)
  | 0, _, _ => none
  | fuel + 1, acc, cs =>
    match parseValue fuel cs with
    | some (v, afterVal) =>
      match skipWsL afterVal with
      | ',' :: afterComma => parseArrItems fuel (acc ++ [v]) afterComma
      | ']' :: rest2 => some (Json.arr (acc ++ [v]), rest2)
      | _ => none
    | none => none

end

/-- Model of Python `json.loads`: parse one JSON value and require that
only whitespace remains, raising (returning `none`) otherwise. The fuel
bound is generous; it decreases at every recursive call while each call
consumes input, so it is never exhausted on inputs of this length. (The
interpreter-level recursion limit on very deeply nested values and the
int-digit conversion limit of recent CPython are outside this model.) -/
def parseJson (s : String) : Option Json :=
  match parseValue (4 * s.length + 4) s.data with
  | some (j, rest) => if skipWsL rest = [] then some j else none
  | none => none

/-! ## Chat request rewriting (`UpstreamAPIClient.proxy_chat_completion`,
src/luminarychat.py:331-345) -/

/-- One entry of the request body's `messages` list. -/
structure ChatMessage where
  role : String
  content : String
deriving DecidableEq

/-- The parts of the request body that `proxy_chat_completion` touches;
all other fields of `request_data` pass through unmodified. -/
structure ChatRequest where
  model : String
  messages : List ChatMessage
deriving DecidableEq

/-- A persona, as loaded by `personas.load_personas`
(only the fields `proxy_chat_completion` reads). -/
structure PersonalityDefinition where
  id : String
  system_prompt : String

/-- The request-body rewriting performed by `proxy_chat_completion` before
dispatch (src/luminarychat.py:331-345): overwrite `model` with the configured
upstream model name, then prepend a system message built from the persona's
`system_prompt` exactly when the caller supplied no system-role message. -/
def proxy_request_rewrite (upstream_model_name : String)
    (personality : PersonalityDefinition) (request_data : ChatRequest) : ChatRequest :=
  let request_data1 : ChatRequest := { request_data with model := upstream_model_name }
  let messages := request_data1.messages
  let has_system := messages.any (fun msg => msg.role == "system")
  let messages2 :=
    if has_system then messages
    else { role := "system", content := personality.system_prompt } :: messages
  { request_data1 with messages := messages2 }

/-! ## Retry with exponential backoff (`UpstreamAPIClient._retry_request`,
src/luminarychat.py:303-322) -/

/-- The two exception classes `_retry_request` catches:
`aiohttp.ClientError` and `asyncio.TimeoutError`. -/
inductive TransportError where
  | clientError (msg : String)
  | timeoutError
deriving DecidableEq

/-- Outcome of one call of `request_func`: an HTTP response (any status),
or a raised transport exception. -/
inductive AttemptResult where
  | success (status : Nat) (body : String)
  | failure (e : TransportError)
deriving DecidableEq

/-- Result of `_retry_request`: a returned response together with the number
of upstream attempts made and the sequence of backoff sleeps performed; the
re-raised last transport exception after exhausting all attempts; or the
degenerate `raise None` reached when the attempt loop ran zero times. -/
inductive RetryOutcome where
  | ok (status : Nat) (body : String) (attempts : Nat) (delays : List Rat)
  | raised (e : TransportError) (attempts : Nat) (delays : List Rat)
  | raisedNone
deriving DecidableEq

/-- The `for attempt in range(max_retries)` loop of `_retry_request`
(src/luminarychat.py:308-322). `remaining` counts loop iterations still to
run, `attempt` is the current index, `delays` the sleeps performed so far
(`RETRY_DELAY * (2 ** attempt)`, slept only when `attempt < max_retries - 1`,
i.e. when `remaining > 1`), `last` is `last_exception`. The transport is a
function from attempt index to that attempt's result. -/
def retryLoop (retry_delay : Rat) (transport : Nat → AttemptResult) :
    Nat → Nat → List Rat → Option TransportError → RetryOutcome
  | 0, attempt, delays, last =>
    match last with
    | some e => .raised e attempt delays
    | none => .raisedNone
  | remaining + 1, attempt, delays, _last =>
    match transport attempt with
    | .success st body => .ok st body (attempt + 1) delays
    | .failure e =>
      retryLoop retry_delay transport remaining (attempt + 1)
        (if 0 < remaining then delays ++ [retry_delay * 2 ^ attempt] else delays) (some e)

/-- Model of `_retry_request` with an effective attempt budget `max_retries`. -/
def retry_request (retry_delay : Rat) (max_retries : Nat)
    (transport : Nat → AttemptResult) : RetryOutcome :=
  retryLoop retry_delay transport max_retries 0 [] none

/-- The Python default-argument idiom `max_retries = max_retries or
self.config.MAX_RETRIES` (src/luminarychat.py:305): `None` and `0` are both
falsy, so either yields the configured value. -/
def effectiveMaxRetries (given : Option Nat) (config_max_retries : Nat) : Nat :=
  match given with
  | none => config_max_retries
  | some n => if n = 0 then config_max_retries else n

/-- The configuration fields of `Configuration.__init__`
(src/luminarychat.py:68-88). Integer-valued settings are `Int` because
`_get_int` can return any integer; `MAX_RETRIES` is `Nat` since
`range(max_retries)` treats every non-positive value as the empty range. -/
structure Configuration where
  API_URL : String
  API_KEY : String
  UPSTREAM_MODEL_NAME : String
  SERVER_PORT : Int
  SERVER_HOST : String
  MAX_WORKERS : Int
  REQUEST_TIMEOUT : Int
  KEEPALIVE_TIMEOUT : Int
  LOG_LEVEL : String
  RATE_LIMIT_PER_MINUTE : Int
  ENABLE_METRICS : Bool
  MAX_RETRIES : Nat
  RETRY_DELAY : Rat

/-- Model of `Configuration._validate` (src/luminarychat.py:105-120):
`true` exactly when no `ValueError` is raised. It checks `API_URL`,
`API_KEY`, `UPSTREAM_MODEL_NAME`, `SERVER_PORT`, `MAX_WORKERS`,
`REQUEST_TIMEOUT` and `LOG_LEVEL` — and nothing about `MAX_RETRIES`. -/
def validateOk (c : Configuration) : Bool :=
  !(c.API_URL == "") && !(c.API_KEY == "") && !(c.UPSTREAM_MODEL_NAME == "")
    && decide (1 ≤ c.SERVER_PORT) && decide (c.SERVER_PORT ≤ 65535)
    && decide (1 ≤ c.MAX_WORKERS) && decide (1 ≤ c.REQUEST_TIMEOUT)
    && ["DEBUG", "INFO", "WARNING", "ERROR", "CRITICAL"].contains c.LOG_LEVEL

/-! ## Rate limiter (`RateLimiter.check_rate_limit`,
src/luminarychat.py:166-177) -/

/-- Model of `RateLimiter.check_rate_limit` acting on the timestamp list
`self.requests[key]` stored for one key (each call reads and writes only the
checked key's list, under the limiter's lock). Timestamps are rationals
modelling the real-valued clock `time.time()`. Returns the admission decision
together with the list stored back for the key. -/
def check_rate_limit (rate_per_minute : Nat) (stored : List Rat) (now : Rat) :
    Bool × List Rat :=
  let window_start := now - 60
  let pruned := stored.filter (fun ts => window_start < ts)
  if rate_per_minute ≤ pruned.length then (false, pruned)
  else (true, pruned ++ [now])

/-- A sequence of `check_rate_limit` calls for one key at the given clock
times, returning the decisions in order and the final stored list. -/
def runChecks (rate_per_minute : Nat) : List Rat → List Rat → List Bool × List Rat
  | stored, [] => ([], stored)
  | stored, t :: ts =>
    let step := check_rate_limit rate_per_minute stored t
    let rest := runChecks rate_per_minute step.2 ts
    (step.1 :: rest.1, rest.2)

/-! ## Stream processing (`StreamProcessor.process_stream`,
src/luminarychat.py:411-473) -/

/-- How the upstream line iteration ends: normally exhausted, cancelled
(`asyncio.CancelledError`, re-raised), or raising some other exception
carrying message `msg` (e.g. a transport drop mid-stream, or a
`UnicodeDecodeError` from `line.decode`, in which case the line list holds
the lines decoded before the failure). -/
inductive StreamEnd where
  | normal
  | cancelled
  | errored (msg : String)

/-- Effect of one loop iteration of `process_stream` on one upstream line:
skip (`continue` on an empty line), yield one output frame (a code-point
sequence, since rewritten frames can carry any code point), hit the
`[DONE]` sentinel (yield it and `break`), or raise an exception out of the
loop body. -/
inductive LineResult where
  | skipLine
  | frame (f : List Nat)
  | doneLine
  | raised (msg : String)
deriving DecidableEq

/-- Python type name of a decoded JSON value, for TypeError messages. -/
def jsonTypeName : Json → String
  | .null => "NoneType"
  | .bool _ => "bool"
  | .num _ => "int"
  | .fnum _ => "float"
  | .str _ => "str"
  | .arr _ => "list"
  | .obj _ => "dict"

/-- The Python test `"model" in chunk_data` (src/luminarychat.py:438) for
each possible `json.loads` result: key lookup on a dict, element equality
on a list, substring test on a str, and a TypeError on the remaining
types. -/
def modelMembership : Json → Except String Bool
  | .obj fields => .ok (fields.any (fun f => f.1 = uc "model"))
  | .arr items =>
    .ok (items.any (fun j => match j with | .str s => s = uc "model" | _ => false))
  | .str s => .ok (ncOccurs (uc "model") s)
  | j => .error ("argument of type '" ++ jsonTypeName j ++ "' is not iterable")

/-- Lines 438-439 of src/luminarychat.py: `if "model" in chunk_data:
chunk_data["model"] = requested_model_id`, with the TypeErrors the
assignment raises on non-dict values. -/
def rewriteChunk (requested_model_id : String) (chunk : Json) : Except String Json :=
  match modelMembership chunk with
  | .error m => .error m
  | .ok false => .ok chunk
  | .ok true =>
    match chunk with
    | .obj fields =>
      .ok (Json.obj (objInsert fields (uc "model") (Json.str (uc requested_model_id))))
    | .arr _ => .error "list indices must be integers or slices, not str"
    | _ => .error "'str' object does not support item assignment"

/-- One loop iteration of `process_stream` (src/luminarychat.py:419-452)
on one decoded upstream line: skip falsy lines; yield a bare separator for
whitespace-only lines; on a `data: ` line, forward the `[DONE]` sentinel
and stop, rewrite the `model` field of a JSON payload, or forward an
unparseable line unchanged; forward any other line unchanged. -/
def processLine (requested_model_id line : String) : LineResult :=
  if line == "" then .skipLine
  else
    let line_str := pyStrip line
    if line_str == "" then .frame (uc "\n")
    else if strBegins "data: " line_str then
      let data_content := pyStrip (pyDropStr 6 line_str)
      if data_content == "[DONE]" then .doneLine
      else
        match parseJson data_content with
        | some chunk =>
          match rewriteChunk requested_model_id chunk with
          | .ok chunk2 => .frame (uc "data: " ++ dumpJson chunk2 ++ uc "\n\n")
          | .error m => .raised m
        | none => .frame (uc (line_str ++ "\n\n"))
    else .frame (uc (line_str ++ "\n\n"))

/-- The final in-band error frame emitted by `process_stream`'s
`except Exception` handler (src/luminarychat.py:457-470), serialized by
the default `json.dumps`, so with `ensure_ascii=True`. -/
def streamErrorFrame (msg : String) : List Nat :=
  uc "data: " ++ dumpJsonAscii (Json.obj [(uc "error", Json.obj
    [(uc "message", Json.str (uc ("Stream processing error: " ++ msg))),
     (uc "type", Json.str (uc "stream_error"))])]) ++ uc "\n\n"

/-- Model of `StreamProcessor.process_stream` (src/luminarychat.py:411-473):
the full sequence of frames yielded to the caller, given the decoded
upstream lines and how their iteration ends. The `[DONE]` sentinel breaks
out of the loop; an exception from a loop body ends the sequence with one
error frame; an exception raised by the iteration itself (after all lines)
does the same unless it is a cancellation, which re-raises without
emitting a frame. -/
def process_stream (requested_model_id : String) :
    List String → StreamEnd → List (List Nat)
  | [], e =>
    match e with
    | .errored msg => [streamErrorFrame msg]
    | _ => []
  | line :: rest, e =>
    match processLine requested_model_id line with
    | .skipLine => process_stream requested_model_id rest e
    | .frame f => f :: process_stream requested_model_id rest e
    | .doneLine => [uc "data: [DONE]\n\n"]
    | .raised m => [streamErrorFrame m]

/-- Claim C2: for every dispatched request, the model field of the outbound
request body equals the single configured upstream model name, regardless of
the model value the caller supplied. -/
theorem C2_upstream_model_substitution (upstream_model_name : String)
    (personality : PersonalityDefinition) (request_data : ChatRequest) :
    (proxy_request_rewrite upstream_model_name personality request_data).model
      = upstream_model_name := rfl

/-- Claim C1: if the caller's message list has no system-role message,
exactly one system message holding the persona's instruction text is
prepended; if it already has one, the message list is forwarded unchanged in
content and ordering — so the outbound request never carries both the
caller's and the persona's system instruction. -/
theorem C1_persona_injection (upstream_model_name : String)
    (personality : PersonalityDefinition) (request_data : ChatRequest) :
    (request_data.messages.any (fun msg => msg.role == "system") = true →
       (proxy_request_rewrite upstream_model_name personality request_data).messages
         = request_data.messages)
  ∧ (request_data.messages.any (fun msg => msg.role == "system") = false →
       (proxy_request_rewrite upstream_model_name personality request_data).messages
         = { role := "system", content := personality.system_prompt } :: request_data.messages
       ∧ (proxy_request_rewrite upstream_model_name personality request_data).messages.countP
            (fun msg => msg.role == "system") = 1) := by
  constructor
  · intro h
    simp [proxy_request_rewrite, h]
  · intro h
    refine ⟨by simp [proxy_request_rewrite, h], ?_⟩
    simp only [proxy_request_rewrite, h, Bool.false_eq_true, if_false, List.countP_cons]
    have hz : request_data.messages.countP (fun msg => msg.role == "system") = 0 := by
      rw [List.countP_eq_zero]
      intro a ha
      simp only [List.any_eq_false] at h
      exact h a ha
    simp [hz]

/-- Claim C1 witness: persona injection on a request with no system message,
and untouched forwarding of a request with a caller system message. -/
theorem C1_persona_injection_witness :
    (proxy_request_rewrite "up" ⟨"p", "SP"⟩ ⟨"socrates", [⟨"user", "hi"⟩]⟩).messages
      = [⟨"system", "SP"⟩, ⟨"user", "hi"⟩]
  ∧ (proxy_request_rewrite "up" ⟨"p", "SP"⟩
        ⟨"socrates", [⟨"system", "own"⟩, ⟨"user", "hi"⟩]⟩).messages
      = [⟨"system", "own"⟩, ⟨"user", "hi"⟩] :=
  ⟨((C1_persona_injection "up" ⟨"p", "SP"⟩ ⟨"socrates", [⟨"user", "hi"⟩]⟩).2 rfl).1,
   (C1_persona_injection "up" ⟨"p", "SP"⟩
      ⟨"socrates", [⟨"system", "own"⟩, ⟨"user", "hi"⟩]⟩).1 rfl⟩

/-- Claim C9: after every `check_rate_limit` call, the stored timestamp list
for the checked key holds only timestamps strictly newer than `now - 60` and
is no longer than the configured per-minute limit (given the pre-state
already respected the length bound, as every state reachable from the empty
initial state does). -/
theorem C9_rate_state_bounded (rate_per_minute : Nat) (stored : List Rat) (now : Rat)
    (hlen : stored.length ≤ rate_per_minute) :
    (∀ ts ∈ (check_rate_limit rate_per_minute stored now).2, now - 60 < ts)
  ∧ (check_rate_limit rate_per_minute stored now).2.length ≤ rate_per_minute := by
  have hmem : ∀ ts ∈ stored.filter (fun ts => now - 60 < ts), now - 60 < ts := by
    intro ts hts
    have := (List.mem_filter.mp hts).2
    exact of_decide_eq_true this
  have hflen : (stored.filter (fun ts => now - 60 < ts)).length ≤ stored.length :=
    List.length_filter_le _ _
  by_cases hc : rate_per_minute ≤ (stored.filter (fun ts => now - 60 < ts)).length
  · simp only [check_rate_limit, if_pos hc]
    exact ⟨hmem, le_trans hflen hlen⟩
  · simp only [check_rate_limit, if_neg hc]
    refine ⟨?_, ?_⟩
    · intro ts hts
      rcases List.mem_append.mp hts with h | h
      · exact hmem ts h
      · have : ts = now := by simpa using h
        subst this
        linarith
    · simp only [List.length_append, List.length_singleton]
      omega

/-- Claim C9 witness: a rejected call at a full window keeps the bound. -/
theorem C9_rate_state_bounded_witness :
    (∀ ts ∈ (check_rate_limit 1 [(0 : Rat)] 1).2, (1 : Rat) - 60 < ts)
  ∧ (check_rate_limit 1 [(0 : Rat)] 1).2.length ≤ 1 :=
  C9_rate_state_bounded 1 [(0 : Rat)] 1 (by decide)

/-- Shift lemma for the exponential-backoff delay sequence. -/
theorem delaysShift (base : Rat) (a k : Nat) :
    base * 2 ^ a :: (List.range k).map (fun i => base * 2 ^ (a + 1 + i))
      = (List.range (k + 1)).map (fun i => base * 2 ^ (a + i)) := by
  rw [List.range_succ_eq_map, List.map_cons, List.map_map]
  have h2 : (List.range k).map (fun i => base * 2 ^ (a + 1 + i))
      = (List.range k).map ((fun i => base * 2 ^ (a + i)) ∘ Nat.succ) := by
    refine List.map_congr_left fun i _ => ?_
    have h : a + 1 + i = a + (i + 1) := by omega
    simp [Function.comp, h]
  rw [h2]
  norm_num

/-- With failures on attempts `a ≤ i < a + k` and a success on attempt
`a + k` (which stays within the budget), the retry loop returns the success
after `a + k + 1` attempts, sleeping `base * 2 ^ i` after each failure. -/
theorem retryLoop_ok (base : Rat) (transport : Nat → AttemptResult)
    (st : Nat) (body : String) (e : Nat → TransportError) :
    ∀ (k n a : Nat) (delays : List Rat) (last : Option TransportError),
      k < n →
      (∀ i, a ≤ i → i < a + k → transport i = .failure (e i)) →
      transport (a + k) = .success st body →
      retryLoop base transport n a delays last
        = .ok st body (a + k + 1)
            (delays ++ (List.range k).map (fun i => base * 2 ^ (a + i))) := by
  intro k
  induction k with
  | zero =>
    intro n a delays last hk hfail hsucc
    obtain ⟨m, rfl⟩ : ∃ m, n = m + 1 := ⟨n - 1, by omega⟩
    rw [Nat.add_zero] at hsucc
    simp [retryLoop, hsucc]
  | succ k ih =>
    intro n a delays last hk hfail hsucc
    obtain ⟨m, rfl⟩ : ∃ m, n = m + 1 := ⟨n - 1, by omega⟩
    have hm : 0 < m := by omega
    have hfa : transport a = .failure (e a) := hfail a le_rfl (by omega)
    have ihres := ih m (a + 1) (delays ++ [base * 2 ^ a]) (some (e a))
      (by omega) (fun i h1 h2 => hfail i (by omega) (by omega))
      (by rw [show a + 1 + k = a + (k + 1) from by omega]; exact hsucc)
    simp only [retryLoop, hfa, if_pos hm]
    rw [ihres]
    congr 1
    · omega
    · rw [List.append_assoc, List.singleton_append, delaysShift]

/-- With failures on every attempt `a ≤ i < a + n` of a budget of `n > 0`
remaining attempts, the retry loop makes all `n` attempts, sleeps after each
but the last, and re-raises the last exception. -/
theorem retryLoop_exhaust (base : Rat) (transport : Nat → AttemptResult)
    (e : Nat → TransportError) :
    ∀ (n : Nat), 0 < n → ∀ (a : Nat) (delays : List Rat) (last : Option TransportError),
      (∀ i, a ≤ i → i < a + n → transport i = .failure (e i)) →
      retryLoop base transport n a delays last
        = .raised (e (a + n - 1)) (a + n)
            (delays ++ (List.range (n - 1)).map (fun i => base * 2 ^ (a + i))) := by
  intro n
  induction n with
  | zero => omega
  | succ m ih =>
    intro _ a delays last hfail
    have hfa : transport a = .failure (e a) := hfail a le_rfl (by omega)
    by_cases hm : 0 < m
    · have ihres := ih hm (a + 1) (delays ++ [base * 2 ^ a]) (some (e a))
        (fun i h1 h2 => hfail i (by omega) (by omega))
      have h1 : a + 1 + m - 1 = a + (m + 1) - 1 := by omega
      have h2 : a + 1 + m = a + (m + 1) := by omega
      simp only [retryLoop, hfa, if_pos hm]
      rw [ihres, h1, h2, List.append_assoc, List.singleton_append, delaysShift,
        show m - 1 + 1 = m from by omega]
      simp
    · have hm0 : m = 0 := by omega
      subst hm0
      simp [retryLoop, hfa]

/-- Claim C6: on transport failures (connection failures or timeouts) the
request is retried with exponential backoff `base * 2 ^ attemptIndex`
starting from attempt 0: a transport that fails on the first `k` attempts
and succeeds on attempt `k` (within the budget of `N` attempts) is observed
to make `k + 1` calls with sleeps `base * 2 ^ 0, ..., base * 2 ^ (k - 1)`
between them before returning the success. -/
theorem C6_exponential_backoff (base : Rat) (N k : Nat)
    (transport : Nat → AttemptResult) (e : Nat → TransportError)
    (st : Nat) (body : String)
    (hk : k < N)
    (hfail : ∀ i, i < k → transport i = .failure (e i))
    (hsucc : transport k = .success st body) :
    retry_request base N transport
      = .ok st body (k + 1) ((List.range k).map (fun i => base * 2 ^ i)) := by
  have h := retryLoop_ok base transport st body e k N 0 [] none hk
    (fun i _ h2 => hfail i (by omega)) (by simpa using hsucc)
  simpa using h

/-- Claim C6 witness: with `N = 3` and `base = 1`, a transport failing twice
then succeeding is retried exactly twice, with delays `1` and `2`. -/
theorem C6_exponential_backoff_witness :
    retry_request 1 3 (fun i => if i < 2 then .failure .timeoutError else .success 200 "ok")
      = .ok 200 "ok" 3 [1, 2] := by
  have h := C6_exponential_backoff 1 3 2
    (fun i => if i < 2 then .failure .timeoutError else .success 200 "ok")
    (fun _ => .timeoutError) 200 "ok" (by omega)
    (fun i hi => by simp [hi]) (by norm_num)
  rw [h]
  norm_num [List.range_succ]

/-- Claim C10: when every attempt raises a transport error, `_retry_request`
with a budget of `N ≥ 1` attempts performs exactly `N` attempts and
re-raises the last exception; `Configuration._validate` accepts a
configuration with `MAX_RETRIES = 0`; and with that configuration (reached
through the `max_retries or config.MAX_RETRIES` default) the attempt loop
runs zero times and the terminal `raise last_exception` raises `None`. -/
theorem C10_retry_exhaustion_and_zero_config :
    (∀ (base : Rat) (N : Nat) (e : Nat → TransportError) (transport : Nat → AttemptResult),
        1 ≤ N → (∀ i, i < N → transport i = .failure (e i)) →
        retry_request base N transport
          = .raised (e (N - 1)) N ((List.range (N - 1)).map (fun i => base * 2 ^ i)))
  ∧ (∃ c : Configuration, validateOk c = true ∧ c.MAX_RETRIES = 0)
  ∧ (∀ (base : Rat) (transport : Nat → AttemptResult),
        retry_request base (effectiveMaxRetries none 0) transport = .raisedNone) := by
  refine ⟨?_, ?_, ?_⟩
  · intro base N e transport hN hfail
    have h := retryLoop_exhaust base transport e N (by omega) 0 [] none
      (fun i _ h2 => hfail i (by omega))
    simpa using h
  · exact ⟨⟨"https://api.zaguanai.com/v1", "k", "promptshield/gemini-flash-lite-latest",
      8000, "0.0.0.0", 100, 60, 5, "INFO", 60, true, 0, 1⟩, by decide, rfl⟩
  · intro base transport
    rfl

/-- Claim C10 witness: two all-failing attempts re-raise the last exception
after one backoff sleep, and a zero budget ends in the `raise None` state. -/
theorem C10_retry_exhaustion_and_zero_config_witness :
    retry_request 1 2 (fun _ => .failure (.clientError "refused"))
      = .raised (.clientError "refused") 2 [1]
  ∧ retry_request 1 (effectiveMaxRetries none 0) (fun _ => .failure .timeoutError)
      = .raisedNone := by
  constructor
  · have h := C10_retry_exhaustion_and_zero_config.1 1 2 (fun _ => .clientError "refused")
      (fun _ => .failure (.clientError "refused")) (by omega) (fun _ _ => rfl)
    rw [h]
    norm_num [List.range_succ]
  · exact C10_retry_exhaustion_and_zero_config.2.2 1 (fun _ => .failure .timeoutError)

/-- Admitting calls whose times all lie within one open 60-second window
(pairwise gaps below 60) prunes nothing, so starting from a stored list
also inside the window, every call is admitted while capacity lasts and the
stored list accumulates the call times in order. -/
theorem runChecks_window (limit : Nat) :
    ∀ (times stored : List Rat),
      (∀ s ∈ stored, ∀ t ∈ times, t - s < 60) →
      (∀ s ∈ times, ∀ t ∈ times, t - s < 60) →
      stored.length + times.length ≤ limit →
      (runChecks limit stored times).1 = List.replicate times.length true
    ∧ (runChecks limit stored times).2 = stored ++ times := by
  intro times
  induction times with
  | nil =>
    intro stored _ _ _
    simp [runChecks]
  | cons t ts ih =>
    intro stored h1 h2 h3
    have hfilter : stored.filter (fun ts2 => t - 60 < ts2) = stored := by
      apply List.filter_eq_self.mpr
      intro s hs
      have hw := h1 s hs t (by simp)
      exact decide_eq_true (by linarith)
    have hlt : stored.length < limit := by
      simp only [List.length_cons] at h3
      omega
    have hstep : check_rate_limit limit stored t = (true, stored ++ [t]) := by
      simp only [check_rate_limit, hfilter]
      rw [if_neg (by omega)]
    have ihres := ih (stored ++ [t])
      (by
        intro s hs u hu
        rcases List.mem_append.mp hs with h | h
        · exact h1 s h u (by simp [hu])
        · have : s = t := by simpa using h
          subst this
          exact h2 s (by simp) u (by simp [hu]))
      (fun s hs u hu => h2 s (by simp [hs]) u (by simp [hu]))
      (by simp only [List.length_append, List.length_singleton, List.length_nil,
            List.length_cons] at h3 ⊢; omega)
    simp only [runChecks, hstep]
    refine ⟨?_, ?_⟩
    · simp [ihres.1, List.replicate_succ]
    · rw [ihres.2, List.append_assoc, List.singleton_append]

/-- Claim C4: `check_rate_limit` prunes timestamps older than `now - 60`,
denies without recording exactly when the remaining count reaches the
per-minute limit, and otherwise records `now` and admits. Consequently,
admitting exactly `limit` calls within one 60-second window succeeds for
all of them, one excess attempt inside the window is denied, and once the
window has passed (clock at least 60s beyond every earlier admission) the
exhausted key is admitted again. -/
theorem C4_sliding_window_rate_limit (limit : Nat) (times : List Rat) (textra tlate : Rat)
    (hpos : 0 < limit)
    (hlen : times.length = limit)
    (hwin : ∀ s ∈ times, ∀ t ∈ times, t - s < 60)
    (hextra : ∀ s ∈ times, textra - s < 60)
    (hlate : ∀ s ∈ times, s + 60 ≤ tlate) :
    (∀ (stored : List Rat) (now : Rat),
        ((check_rate_limit limit stored now).1 = false
            ↔ limit ≤ (stored.filter (fun ts => now - 60 < ts)).length)
      ∧ ((check_rate_limit limit stored now).1 = false →
            (check_rate_limit limit stored now).2
              = stored.filter (fun ts => now - 60 < ts))
      ∧ ((check_rate_limit limit stored now).1 = true →
            (check_rate_limit limit stored now).2
              = stored.filter (fun ts => now - 60 < ts) ++ [now]))
  ∧ (runChecks limit [] times).1 = List.replicate limit true
  ∧ (check_rate_limit limit (runChecks limit [] times).2 textra).1 = false
  ∧ (check_rate_limit limit (check_rate_limit limit (runChecks limit [] times).2 textra).2
        tlate).1 = true := by
  obtain ⟨hdec, hstate⟩ := runChecks_window limit times [] (by simp) hwin (by simp [hlen])
  have hstate' : (runChecks limit [] times).2 = times := by simpa using hstate
  have hfull : times.filter (fun ts => textra - 60 < ts) = times := by
    apply List.filter_eq_self.mpr
    intro s hs
    have hw := hextra s hs
    exact decide_eq_true (by linarith)
  have hdeny : check_rate_limit limit times textra = (false, times) := by
    simp only [check_rate_limit, hfull]
    rw [if_pos (by omega)]
  refine ⟨?_, ?_, ?_, ?_⟩
  · intro stored now
    by_cases hc : limit ≤ (stored.filter (fun ts => now - 60 < ts)).length
    · simp [check_rate_limit, hc]
    · simp [check_rate_limit, hc]
  · rw [hdec, hlen]
  · rw [hstate', hdeny]
  · rw [hstate', hdeny]
    have hempty : times.filter (fun ts => tlate - 60 < ts) = [] := by
      apply List.filter_eq_nil_iff.mpr
      intro s hs
      have hw := hlate s hs
      simp only [decide_eq_true_eq]
      intro hcon
      linarith
    simp only [check_rate_limit, hempty]
    rw [if_neg (by simp only [List.length_nil, Nat.le_zero]; exact Nat.pos_iff_ne_zero.mp hpos)]

/-- Claim C4 witness: with limit 2, calls at 0 and 1 are both admitted, a
third call at 2 is denied, and a call at 100 (60s past the window) is
admitted again. -/
theorem C4_sliding_window_rate_limit_witness :
    (runChecks 2 [] [(0 : Rat), 1]).1 = List.replicate 2 true
  ∧ (check_rate_limit 2 (runChecks 2 [] [(0 : Rat), 1]).2 2).1 = false
  ∧ (check_rate_limit 2 (check_rate_limit 2 (runChecks 2 [] [(0 : Rat), 1]).2 2).2 100).1
      = true := by
  have h := C4_sliding_window_rate_limit 2 [(0 : Rat), 1] 2 100 (by omega) (by simp)
    (by intro s hs t ht; fin_cases hs <;> fin_cases ht <;> norm_num)
    (by intro s hs; fin_cases hs <;> norm_num)
    (by intro s hs; fin_cases hs <;> norm_num)
  exact ⟨h.2.1, h.2.2.1, h.2.2.2⟩

/-- On a line whose stripped form starts with `data: `, `processLine`
reaches the data branch: sentinel check first, then JSON parse of the
stripped payload. -/
theorem processLine_data (requested_model_id line : String)
    (h1 : strBegins "data: " (pyStrip line) = true) :
    processLine requested_model_id line =
      (if pyStrip (pyDropStr 6 (pyStrip line)) == "[DONE]" then .doneLine
       else
         match parseJson (pyStrip (pyDropStr 6 (pyStrip line))) with
         | some chunk =>
           match rewriteChunk requested_model_id chunk with
           | .ok chunk2 => .frame (uc "data: " ++ dumpJson chunk2 ++ uc "\n\n")
           | .error m => .raised m
         | none => .frame (uc (pyStrip line ++ "\n\n"))) := by
  have hne : (line == "") = false := by
    rcases eq_or_ne line "" with h | h
    · subst h
      exact absurd h1 (by decide)
    · exact beq_eq_false_iff_ne.mpr h
  have hne2 : (pyStrip line == "") = false := by
    rcases eq_or_ne (pyStrip line) "" with h | h
    · rw [h] at h1
      exact absurd h1 (by decide)
    · exact beq_eq_false_iff_ne.mpr h
  simp only [processLine, hne, hne2, h1, Bool.false_eq_true, if_false, if_true]

/-- Claim C8 counterexample: the line `data:  [DONE]` (two spaces) has a
payload that fails to parse as JSON, yet it is not forwarded unchanged —
the sentinel check fires first and emits the normalized sentinel frame. -/
theorem C8_counterexample :
    strBegins "data: " (pyStrip "data:  [DONE]") = true
  ∧ parseJson (pyStrip (pyDropStr 6 (pyStrip "data:  [DONE]"))) = none
  ∧ process_stream "m" ["data:  [DONE]"] StreamEnd.normal = [uc "data: [DONE]\n\n"]
  ∧ process_stream "m" ["data:  [DONE]"] StreamEnd.normal
      ≠ [uc (pyStrip "data:  [DONE]" ++ "\n\n")] :=
  ⟨rfl, rfl, rfl, by decide⟩

/-- Claim C8 as amended: every data line whose payload fails to parse as
JSON — other than lines whose stripped payload is the `[DONE]` sentinel,
which the sentinel rule intercepts before JSON parsing — is forwarded
unchanged (the stripped line, as the processor normalizes every line) as an
output frame rather than dropped. -/
theorem C8_unparseable_line_forwarded (requested_model_id line : String)
    (rest : List String) (e : StreamEnd)
    (h1 : strBegins "data: " (pyStrip line) = true)
    (h2 : parseJson (pyStrip (pyDropStr 6 (pyStrip line))) = none)
    (h3 : pyStrip (pyDropStr 6 (pyStrip line)) ≠ "[DONE]") :
    process_stream requested_model_id (line :: rest) e
      = uc (pyStrip line ++ "\n\n") :: process_stream requested_model_id rest e := by
  have hnd : (pyStrip (pyDropStr 6 (pyStrip line)) == "[DONE]") = false :=
    beq_eq_false_iff_ne.mpr h3
  have hpl := processLine_data requested_model_id line h1
  rw [hnd, h2] at hpl
  simp only [Bool.false_eq_true, if_false] at hpl
  simp only [process_stream, hpl]

/-- Claim C8 witness: a malformed JSON data line is forwarded verbatim and
the stream continues. -/
theorem C8_unparseable_line_forwarded_witness :
    process_stream "m" ["data: oops"] StreamEnd.normal = [uc "data: oops\n\n"] := by
  have h := C8_unparseable_line_forwarded "m" "data: oops" [] StreamEnd.normal
    rfl rfl (by decide)
  rw [h]
  rfl

end LuminaryChat
